import Mathlib

/-!
Verification of the chart layout and range-resolution pipeline
(src/chart.go of the go-chart repository).

The Go code is shallowly embedded: pure functions become Lean functions,
float64 values are embedded as exact rationals (the embedding covers the
finite, non-NaN floats; the one subtraction that can overflow the float
range is flagged explicitly), Go `int` becomes `Int`, nilable interface
and function fields become `Option`, and the external collaborators
(the renderer provider, text measurement, tick generation, the font
loader and the output sink) are abstracted into an `Env` record of
functions and outcomes.  The rendering method itself becomes a pure
function returning the sequence of draw calls it issues, the returned
error, and the final contents of the shared mutable Range objects.

Definitions whose Go source lives outside src/chart.go (the Box, Range,
Tick, Style and math helper types that chart.go uses) are reconstructed
from the specification; each such definition carries a doc comment
starting `Modelled from the spec:`.
-/

namespace GoChart

set_option maxRecDepth 100000
set_option maxHeartbeats 1600000

/-- Pixel-space axis-aligned rectangle (the repository's Box type).
Modelled from the spec: top, left, right, bottom with derived
width/height. -/
structure Box where
  Top : Int
  Left : Int
  Right : Int
  Bottom : Int
deriving DecidableEq

/-- Modelled from the spec: derived box width. -/
def Box.Width (b : Box) : Int := b.Right - b.Left

/-- Modelled from the spec: derived box height. -/
def Box.Height (b : Box) : Int := b.Bottom - b.Top

/-- Modelled from the spec: a padding component that is still zero means
"use the default", the same zero-means-default convention GetWidth,
GetHeight and GetDPI follow in src/chart.go. -/
def Box.GetTop (b : Box) (d : Int) : Int := if b.Top = 0 then d else b.Top

/-- Modelled from the spec: zero-means-default left padding component. -/
def Box.GetLeft (b : Box) (d : Int) : Int := if b.Left = 0 then d else b.Left

/-- Modelled from the spec: zero-means-default right padding component. -/
def Box.GetRight (b : Box) (d : Int) : Int := if b.Right = 0 then d else b.Right

/-- Modelled from the spec: zero-means-default bottom padding component. -/
def Box.GetBottom (b : Box) (d : Int) : Int := if b.Bottom = 0 then d else b.Bottom

/-- Modelled from the spec: growing a box encloses another box's
footprint (componentwise min of top/left, max of right/bottom). -/
def Box.Grow (b other : Box) : Box :=
  ⟨min b.Top other.Top, min b.Left other.Left,
   max b.Right other.Right, max b.Bottom other.Bottom⟩

/-- Modelled from the spec: constrain a grown box back within outer
bounds; whenever the grown box exceeds the bounds on a side, the inner
canvas box is shrunk on that side by exactly the overflow. -/
def Box.OuterConstrain (b bounds other : Box) : Box :=
  ⟨if other.Top < bounds.Top then b.Top + (bounds.Top - other.Top) else b.Top,
   if other.Left < bounds.Left then b.Left + (bounds.Left - other.Left) else b.Left,
   if bounds.Right < other.Right then b.Right - (other.Right - bounds.Right) else b.Right,
   if bounds.Bottom < other.Bottom then b.Bottom - (other.Bottom - bounds.Bottom) else b.Bottom⟩

/-- The largest finite float64 value, exactly (2 - 2^-52) * 2^1023.
Used by the source as the sentinel initial value of the running
min/max accumulators. -/
def MaxFloat64 : ℚ := ((2 ^ 1024 - 2 ^ 971 : Nat) : ℚ)

/-- The rational embedding covers the finite floats exactly; the one
operation in this pipeline that can leave the finite float range is the
range-delta subtraction, and a float64 subtraction of finite values
yields an infinity exactly when its exact result lies outside the
finite range.  goIsInf embeds math.IsInf(x, 0) for such computed
deltas. -/
def goIsInf (q : ℚ) : Bool := decide (MaxFloat64 < q) || decide (q < -MaxFloat64)

/-- The rational embedding ranges over finite, non-NaN floats only, and
none of min, max or subtraction of such values produces a NaN, so
math.IsNaN is identically false on every value this pipeline computes. -/
def goIsNaN (_ : ℚ) : Bool := false

/-- The repository's concrete Range implementation (ContinuousRange).
Modelled from the spec: a mutable interval with minimum, maximum and a
pixel-domain length. -/
structure ContinuousRange where
  Min : ℚ
  Max : ℚ
  Domain : Int
deriving DecidableEq

/-- Modelled from the spec: delta = maximum - minimum. -/
def ContinuousRange.GetDelta (r : ContinuousRange) : ℚ := r.Max - r.Min

/-- Modelled from the spec: a Range is unresolved ("zero") while it
still holds its zero value. -/
def ContinuousRange.IsZero (r : ContinuousRange) : Bool :=
  r.Min == 0 && r.Max == 0 && r.Domain == 0

/-- Modelled from the spec: SetMin assigns the minimum verbatim. -/
def ContinuousRange.SetMin (r : ContinuousRange) (v : ℚ) : ContinuousRange :=
  { r with Min := v }

/-- Modelled from the spec: SetMax assigns the maximum verbatim. -/
def ContinuousRange.SetMax (r : ContinuousRange) (v : ℚ) : ContinuousRange :=
  { r with Max := v }

/-- Modelled from the spec: SetDomain assigns the pixel-domain length. -/
def ContinuousRange.SetDomain (r : ContinuousRange) (d : Int) : ContinuousRange :=
  { r with Domain := d }

/-- A tick: an (axis value, label string) pair. -/
structure Tick where
  Value : ℚ
  Label : String
deriving DecidableEq

/-- Modelled from the spec: of a visual style the layout pipeline reads
only the Show flag, the padding, and whether the style as a whole is
still unset; every other visual attribute is abstracted into a single
"some other attribute is set" flag so that the all-fields-unset test
stays expressible. -/
structure Style where
  Show : Bool
  Padding : Box
  otherSet : Bool
deriving DecidableEq

/-- Modelled from the spec: a style is zero when every attribute is
still unset. -/
def Style.IsZero (s : Style) : Bool :=
  !s.Show && s.Padding == ⟨0, 0, 0, 0⟩ && !s.otherSet

/-- Which Y axis a series (or a Y-axis configuration) is tagged with. -/
inductive YAxisType
  | YAxisPrimary
  | YAxisSecondary
deriving DecidableEq

/-- A series with its capability set made explicit.  Modelled from the
spec: a series may expose simple values, bounded values, custom value
formatters (a pair of opaque formatter identities, X then Y), and may
be an "annotation"-flavored series; it declares a target Y axis and a
style whose Show flag (or being entirely unset) decides visibility.
The Go code probes the capabilities by type assertion, bounded values
before simple values; the two Option fields reproduce that probe
order. -/
structure SeriesData where
  style : Style
  yaxis : YAxisType
  values : Option (List (ℚ × ℚ))
  boundedValues : Option (List (ℚ × ℚ × ℚ))
  formatters : Option (Nat × Nat)
  annSeries : Bool
deriving DecidableEq

/-- GetStyle of a series. -/
def SeriesData.GetStyle (s : SeriesData) : Style := s.style

/-- GetYAxis of a series. -/
def SeriesData.GetYAxis (s : SeriesData) : YAxisType := s.yaxis

/-- A series is drawn and folded when its style is entirely unset
(default shown) or explicitly shown (source guard
`s.GetStyle().IsZero() || s.GetStyle().Show`). -/
def SeriesData.shown (s : SeriesData) : Bool :=
  s.style.IsZero || s.style.Show

/-- The X-axis configuration (source type XAxis). -/
structure XAxisCfg where
  Style : Style
  Range : Option ContinuousRange
  Ticks : List Tick
  ValueFormatter : Option Nat
deriving DecidableEq

/-- A Y-axis configuration (source type YAxis), carrying its kind tag. -/
structure YAxisCfg where
  Style : Style
  AxisType : YAxisType
  Range : Option ContinuousRange
  Ticks : List Tick
  ValueFormatter : Option Nat
deriving DecidableEq

/-- The chart configuration (source type Chart).  The Font and
defaultFont pointers become opaque font identities; the overlay
Elements become opaque identities (their only observable effect here is
one draw call each, in order). -/
structure Chart where
  Title : String
  TitleStyle : Style
  Width : Int
  Height : Int
  DPI : ℚ
  Background : Style
  Canvas : Style
  XAxis : XAxisCfg
  YAxis : YAxisCfg
  YAxisSecondary : YAxisCfg
  Font : Option Nat
  defaultFont : Option Nat
  Series : List SeriesData
  Elements : List Nat
deriving DecidableEq

/-- Modelled from the spec: the fixed default chart width. -/
def DefaultChartWidth : Int := 1024

/-- Modelled from the spec: the fixed default chart height. -/
def DefaultChartHeight : Int := 400

/-- Modelled from the spec: the fixed default background padding. -/
def DefaultBackgroundPadding : Box := ⟨5, 5, 5, 5⟩

/-- GetWidth returns the chart width or the default value. -/
def Chart.GetWidth (c : Chart) : Int :=
  if c.Width = 0 then DefaultChartWidth else c.Width

/-- GetHeight returns the chart height or the default value. -/
def Chart.GetHeight (c : Chart) : Int :=
  if c.Height = 0 then DefaultChartHeight else c.Height

/-- Box returns the chart bounds as a box (source Chart.Box). -/
def Chart.Box (c : Chart) : Box :=
  ⟨c.Background.Padding.GetTop DefaultBackgroundPadding.Top,
   c.Background.Padding.GetLeft DefaultBackgroundPadding.Left,
   c.GetWidth - c.Background.Padding.GetRight DefaultBackgroundPadding.Right,
   c.GetHeight - c.Background.Padding.GetBottom DefaultBackgroundPadding.Bottom⟩

/-- getDefaultCanvasBox (source): the chart bounds. -/
def Chart.getDefaultCanvasBox (c : Chart) : GoChart.Box := c.Box

/-- The running min/max accumulators of getRanges (source local
variables minx..maxya and seriesMappedToSecondaryAxis). -/
structure ScanState where
  minx : ℚ
  maxx : ℚ
  miny : ℚ
  maxy : ℚ
  minya : ℚ
  maxya : ℚ
  seriesMappedToSecondaryAxis : Bool
deriving DecidableEq

/-- The sentinel-initialized scan state (math.MaxFloat64 /
-math.MaxFloat64). -/
def scanInit : ScanState :=
  ⟨MaxFloat64, -MaxFloat64, MaxFloat64, -MaxFloat64, MaxFloat64, -MaxFloat64, false⟩

/-- Folding one bounded point (vx, vy1, vy2) into the accumulators,
routed by the series' axis tag (source getRanges, bounded branch). -/
def foldBoundedPoint (seriesAxis : YAxisType) (st : ScanState)
    (p : ℚ × ℚ × ℚ) : ScanState :=
  let st := { st with minx := min st.minx p.1, maxx := max st.maxx p.1 }
  match seriesAxis with
  | .YAxisPrimary =>
      { st with miny := min (min st.miny p.2.1) p.2.2,
                maxy := max (max st.maxy p.2.1) p.2.2 }
  | .YAxisSecondary =>
      { st with minya := min (min st.minya p.2.1) p.2.2,
                maxya := max (max st.maxya p.2.1) p.2.2,
                seriesMappedToSecondaryAxis := true }

/-- Folding one simple point (vx, vy) into the accumulators, routed by
the series' axis tag (source getRanges, value branch). -/
def foldValuePoint (seriesAxis : YAxisType) (st : ScanState)
    (p : ℚ × ℚ) : ScanState :=
  let st := { st with minx := min st.minx p.1, maxx := max st.maxx p.1 }
  match seriesAxis with
  | .YAxisPrimary =>
      { st with miny := min st.miny p.2, maxy := max st.maxy p.2 }
  | .YAxisSecondary =>
      { st with minya := min st.minya p.2, maxya := max st.maxya p.2,
                seriesMappedToSecondaryAxis := true }

/-- Folding one whole series: skipped when hidden; bounded values are
probed before simple values, mirroring the source's type-assertion
order. -/
def scanSeries (st : ScanState) (s : SeriesData) : ScanState :=
  if s.GetStyle.IsZero || s.GetStyle.Show then
    match s.boundedValues with
    | some pts => pts.foldl (foldBoundedPoint s.GetYAxis) st
    | none =>
        match s.values with
        | some pts => pts.foldl (foldValuePoint s.GetYAxis) st
        | none => st
  else st

/-- The full data scan over the series list (source getRanges loop). -/
def scanSeriesList (l : List SeriesData) : ScanState :=
  l.foldl scanSeries scanInit

/-- The min/max of a tick list's values, folded from the float
sentinels exactly as the source does. -/
def tickMinMax (ts : List Tick) : ℚ × ℚ :=
  ts.foldl (fun a t => (min a.1 t.Value, max a.2 t.Value))
    (MaxFloat64, -MaxFloat64)

/-- The starting Range object per axis: the caller's explicit Range
object when present, else a fresh zero ContinuousRange (source lines
202-218; the source allocates `&ContinuousRange{}`). -/
def initialRange (o : Option ContinuousRange) : ContinuousRange :=
  match o with
  | none => ⟨0, 0, 0⟩
  | some r => r

/-- Modelled from the spec: the nice-rounding granularity is a fixed
lookup on the magnitude of delta, one decade below the delta's decade
(deltas in the hundreds round to tens, in the tens to units, sub-unit
deltas to ever finer fractions), with a finest fallback fraction.  The
lookup always yields a positive granularity. -/
def GetRoundToForDelta (delta : ℚ) : ℚ :=
  if 10000000000 ≤ delta then 1000000000
  else if 1000000000 ≤ delta then 100000000
  else if 100000000 ≤ delta then 10000000
  else if 10000000 ≤ delta then 1000000
  else if 1000000 ≤ delta then 100000
  else if 100000 ≤ delta then 10000
  else if 10000 ≤ delta then 1000
  else if 1000 ≤ delta then 100
  else if 100 ≤ delta then 10
  else if 10 ≤ delta then 1
  else if 1 ≤ delta then 1 / 10
  else if 1 / 10 ≤ delta then 1 / 100
  else if 1 / 100 ≤ delta then 1 / 1000
  else if 1 / 1000 ≤ delta then 1 / 10000
  else if 1 / 10000 ≤ delta then 1 / 100000
  else 1 / 1000000

/-- Modelled from the spec: round a value down to a multiple of the
granularity. -/
def RoundDown (value roundTo : ℚ) : ℚ :=
  (⌊value / roundTo⌋ : ℚ) * roundTo

/-- Modelled from the spec: round a value up to a multiple of the
granularity. -/
def RoundUp (value roundTo : ℚ) : ℚ :=
  (⌈value / roundTo⌉ : ℚ) * roundTo

/-- getRanges (source lines 148-272): scan the series data, then
resolve each axis with the precedence explicit-ticks, explicit-range,
auto-computed (Y axes nice-rounded, X exact).  The source's secondary
tick branch reads c.YAxis.Ticks (not c.YAxisSecondary.Ticks); the
translation keeps that behavior. -/
def Chart.getRanges (c : Chart) :
    ContinuousRange × ContinuousRange × ContinuousRange :=
  let st := scanSeriesList c.Series
  let xrange := initialRange c.XAxis.Range
  let yrange := initialRange c.YAxis.Range
  let yrangeAlt := initialRange c.YAxisSecondary.Range
  let xrange :=
    if 0 < c.XAxis.Ticks.length then
      let tmm := tickMinMax c.XAxis.Ticks
      (xrange.SetMin tmm.1).SetMax tmm.2
    else if xrange.IsZero then
      (xrange.SetMin st.minx).SetMax st.maxx
    else xrange
  let yrange :=
    if 0 < c.YAxis.Ticks.length then
      let tmm := tickMinMax c.YAxis.Ticks
      (yrange.SetMin tmm.1).SetMax tmm.2
    else if yrange.IsZero then
      let yrange := (yrange.SetMin st.miny).SetMax st.maxy
      let roundTo := GetRoundToForDelta yrange.GetDelta
      (yrange.SetMin (RoundDown yrange.Min roundTo)).SetMax
        (RoundUp yrange.Max roundTo)
    else yrange
  let yrangeAlt :=
    if 0 < c.YAxisSecondary.Ticks.length then
      let tmm := tickMinMax c.YAxis.Ticks
      (yrangeAlt.SetMin tmm.1).SetMax tmm.2
    else if st.seriesMappedToSecondaryAxis && yrangeAlt.IsZero then
      let yrangeAlt := (yrangeAlt.SetMin st.minya).SetMax st.maxya
      let roundTo := GetRoundToForDelta yrangeAlt.GetDelta
      (yrangeAlt.SetMin (RoundDown yrangeAlt.Min roundTo)).SetMax
        (RoundUp yrangeAlt.Max roundTo)
    else yrangeAlt
  (xrange, yrange, yrangeAlt)

/-- hasSecondarySeries (source lines 372-379): whether any series at
all, shown or hidden, is tagged with the secondary axis. -/
def Chart.hasSecondarySeries (c : Chart) : Bool :=
  c.Series.any (fun s => s.GetYAxis == .YAxisSecondary)

/-- The delta test checkRanges applies to each axis: infinite, NaN or
zero delta is invalid. -/
def invalidDelta (r : ContinuousRange) : Bool :=
  goIsInf r.GetDelta || goIsNaN r.GetDelta || r.GetDelta == 0

/-- The possible errors of one render call. -/
inductive RenderErr
  | noSeries
  | provider (code : Nat)
  | fontLoad (code : Nat)
  | xRange
  | yRange
  | yaRange
  | save (code : Nat)
deriving DecidableEq

/-- checkRanges (source lines 274-288): validate the X and primary Y
deltas always, the secondary delta only behind hasSecondarySeries. -/
def Chart.checkRanges (c : Chart) (xr yr yra : ContinuousRange) :
    Option RenderErr :=
  if invalidDelta xr then some .xRange
  else if invalidDelta yr then some .yRange
  else if c.hasSecondarySeries then
    if invalidDelta yra then some .yaRange else none
  else none

/-- One step of getValueFormatters's series loop (source lines
295-306): a formatter-providing series overwrites the running X
formatter regardless of its axis tag, and the Y formatter of its own
axis. -/
def formatterStep (acc : Option Nat × Option Nat × Option Nat)
    (s : SeriesData) : Option Nat × Option Nat × Option Nat :=
  match s.formatters with
  | some p =>
      match s.GetYAxis with
      | .YAxisPrimary => (some p.1, some p.2, acc.2.2)
      | .YAxisSecondary => (some p.1, acc.2.1, some p.2)
  | none => acc

/-- getValueFormatters (source lines 294-317): fold the series loop,
then let explicit axis formatters override. -/
def Chart.getValueFormatters (c : Chart) :
    Option Nat × Option Nat × Option Nat :=
  let r := c.Series.foldl formatterStep (none, none, none)
  (match c.XAxis.ValueFormatter with
   | some f => some f
   | none => r.1,
   match c.YAxis.ValueFormatter with
   | some f => some f
   | none => r.2.1,
   match c.YAxisSecondary.ValueFormatter with
   | some f => some f
   | none => r.2.2)

/-- hasAxes (source): any of the three axes is visible. -/
def Chart.hasAxes (c : Chart) : Bool :=
  c.XAxis.Style.Show || c.YAxis.Style.Show || c.YAxisSecondary.Style.Show

/-- hasAnnotationSeries (source lines 361-370): any shown
annotation-flavored series. -/
def Chart.hasAnnotationSeries (c : Chart) : Bool :=
  c.Series.any (fun s => s.annSeries && (s.style.IsZero || s.style.Show))

/-- setRangeDomains (source lines 354-359): the pixel-domain of the X
range is the canvas width, of both Y ranges the canvas height. -/
def Chart.setRangeDomains (_ : Chart) (canvasBox : GoChart.Box)
    (xr yr yra : ContinuousRange) :
    ContinuousRange × ContinuousRange × ContinuousRange :=
  (xr.SetDomain canvasBox.Width, yr.SetDomain canvasBox.Height,
   yra.SetDomain canvasBox.Height)

/-- Which axis an external tick-generation call is for. -/
inductive AxisKind
  | X
  | Y
  | YSecondary
deriving DecidableEq

/-- The external collaborators of one render call: the renderer
provider's outcome, the default-font loader's outcome and the loaded
font identity, the per-axis tick generation (the repository's
Axis.GetTicks, which may inspect the resolved range including its
pixel domain and the formatter), the renderer's text measurement, the
per-series annotation footprint measurement, and the outcome of the
final serialization to the output sink. -/
structure Env where
  providerErr : Option Nat
  fontErr : Option Nat
  loadedFont : Nat
  genTicks : AxisKind → ContinuousRange → Option Nat → List Tick
  textWidth : String → Int
  textHeight : String → Int
  annMeasure : Nat → Box → Box
  saveErr : Option Nat

/-- The widest tick label in renderer pixels (zero when no ticks). -/
def maxTickWidth (env : Env) (ts : List Tick) : Int :=
  ts.foldl (fun m t => max m (env.textWidth t.Label)) 0

/-- The tallest tick label in renderer pixels (zero when no ticks). -/
def maxTickHeight (env : Env) (ts : List Tick) : Int :=
  ts.foldl (fun m t => max m (env.textHeight t.Label)) 0

/-- Modelled from the spec: the X axis's tick labels occupy a strip
along the bottom edge of the canvas box (XAxis.Measure). -/
def xAxisMeasure (env : Env) (b : Box) (ts : List Tick) : Box :=
  ⟨b.Top, b.Left, b.Right, b.Bottom + maxTickHeight env ts⟩

/-- Modelled from the spec: a Y axis's tick labels occupy a strip along
the left edge for the primary kind and along the right edge for the
secondary kind (YAxis.Measure, dispatching on the axis's kind tag). -/
def yAxisMeasure (cfg : YAxisCfg) (env : Env) (b : Box) (ts : List Tick) : Box :=
  match cfg.AxisType with
  | .YAxisPrimary => ⟨b.Top, b.Left - maxTickWidth env ts, b.Right, b.Bottom⟩
  | .YAxisSecondary => ⟨b.Top, b.Left, b.Right + maxTickWidth env ts, b.Bottom⟩

/-- getAxesTicks (source lines 323-334): generate ticks for each
visible axis from its resolved range and formatter. -/
def Chart.getAxesTicks (c : Chart) (env : Env) (xr yr yar : ContinuousRange)
    (xf yf yfa : Option Nat) : List Tick × List Tick × List Tick :=
  (if c.XAxis.Style.Show then env.genTicks .X xr xf else [],
   if c.YAxis.Style.Show then env.genTicks .Y yr yf else [],
   if c.YAxisSecondary.Style.Show then env.genTicks .YSecondary yar yfa else [])

/-- getAxesAdjustedCanvasBox (source lines 336-352): grow an outer box
by each visible axis's measured label footprint, then constrain the
canvas box back within the chart bounds. -/
def Chart.getAxesAdjustedCanvasBox (c : Chart) (env : Env)
    (canvasBox : GoChart.Box) (xticks yticks yticksAlt : List Tick) :
    GoChart.Box :=
  let axesOuterBox := canvasBox
  let axesOuterBox :=
    if c.XAxis.Style.Show then
      axesOuterBox.Grow (xAxisMeasure env canvasBox xticks)
    else axesOuterBox
  let axesOuterBox :=
    if c.YAxis.Style.Show then
      axesOuterBox.Grow (yAxisMeasure c.YAxis env canvasBox yticks)
    else axesOuterBox
  let axesOuterBox :=
    if c.YAxisSecondary.Style.Show then
      axesOuterBox.Grow (yAxisMeasure c.YAxisSecondary env canvasBox yticksAlt)
    else axesOuterBox
  canvasBox.OuterConstrain c.Box axesOuterBox

/-- getAnnotationAdjustedCanvasBox (source lines 381-400): grow by
every shown annotation series' measured footprint, then constrain. -/
def Chart.getAnnotationAdjustedCanvasBox (c : Chart) (env : Env)
    (canvasBox : GoChart.Box) : GoChart.Box :=
  let grown := (c.Series.enum.foldl
    (fun (acc : GoChart.Box) p =>
      if p.2.annSeries && (p.2.style.IsZero || p.2.style.Show) then
        acc.Grow (env.annMeasure p.1 canvasBox)
      else acc)
    canvasBox)
  canvasBox.OuterConstrain c.Box grown

/-- The state the layout loop threads: the canvas box, the three
ranges (whose pixel domains track the box), and the current ticks. -/
structure LayoutState where
  canvasBox : Box
  xr : ContinuousRange
  yr : ContinuousRange
  yra : ContinuousRange
  xt : List Tick
  yt : List Tick
  yta : List Tick
deriving DecidableEq

/-- One measure/grow/constrain/re-resolve pass of the axes layout loop:
generate ticks from the current ranges, adjust the canvas box by the
measured label footprints, re-resolve the range domains against the new
box (source lines 106-108, and identically 111-113). -/
def Chart.axesCycle (c : Chart) (env : Env) (xf yf yfa : Option Nat)
    (s : LayoutState) : LayoutState :=
  let t := c.getAxesTicks env s.xr s.yr s.yra xf yf yfa
  let canvasBox := c.getAxesAdjustedCanvasBox env s.canvasBox t.1 t.2.1 t.2.2
  let r := c.setRangeDomains canvasBox s.xr s.yr s.yra
  ⟨canvasBox, r.1, r.2.1, r.2.2, t.1, t.2.1, t.2.2⟩

/-- The layout portion of Render (source lines 105-120): when any axis
is visible, run the measure/grow/constrain/re-resolve pass twice (the
source comment: "do a second pass in case things haven't settled
yet"); when any annotation series is shown, adjust once more for
annotation footprints and regenerate ticks. -/
def Chart.resolveLayout (c : Chart) (env : Env) (xf yf yfa : Option Nat)
    (s0 : LayoutState) : LayoutState :=
  let s1 :=
    if c.hasAxes then
      let t := c.getAxesTicks env s0.xr s0.yr s0.yra xf yf yfa
      let cb := c.getAxesAdjustedCanvasBox env s0.canvasBox t.1 t.2.1 t.2.2
      let r := c.setRangeDomains cb s0.xr s0.yr s0.yra
      let t := c.getAxesTicks env r.1 r.2.1 r.2.2 xf yf yfa
      let cb := c.getAxesAdjustedCanvasBox env cb t.1 t.2.1 t.2.2
      let r := c.setRangeDomains cb r.1 r.2.1 r.2.2
      ⟨cb, r.1, r.2.1, r.2.2, t.1, t.2.1, t.2.2⟩
    else s0
  if c.hasAnnotationSeries then
    let cb := c.getAnnotationAdjustedCanvasBox env s1.canvasBox
    let r := c.setRangeDomains cb s1.xr s1.yr s1.yra
    let t := c.getAxesTicks env r.1 r.2.1 r.2.2 xf yf yfa
    ⟨cb, r.1, r.2.1, r.2.2, t.1, t.2.1, t.2.2⟩
  else s1

/-- The observable calls a render issues, in order: acquiring the
drawing surface, the draw calls, and the final serialization to the
output sink.  Renderer configuration calls (SetDPI, fonts) are not
observable effects on the output and are not traced. -/
inductive REvent
  | acquireSurface
  | drawBackground
  | drawCanvas
  | drawAxis (k : AxisKind)
  | drawSeries (index : Nat) (axis : YAxisType)
  | drawTitle
  | drawElement (index : Nat)
  | save
deriving DecidableEq

/-- Render forces the secondary Y axis's kind tag (source line 74),
on its private copy of the chart. -/
def forceSecondaryAxisType (c : Chart) : Chart :=
  { c with YAxisSecondary := { c.YAxisSecondary with AxisType := .YAxisSecondary } }

/-- Render caches the lazily loaded default font (source lines 81-87),
on its private copy of the chart. -/
def resolveFont (c : Chart) (env : Env) : Chart :=
  match c.Font with
  | none => { c with defaultFont := some env.loadedFont }
  | some _ => c

/-- drawAxes (source lines 421-431) as its sequence of draw events:
one per visible axis, X then primary Y then secondary Y. -/
def drawAxesEvents (c : Chart) : List REvent :=
  (if c.XAxis.Style.Show then [REvent.drawAxis .X] else []) ++
  (if c.YAxis.Style.Show then [REvent.drawAxis .Y] else []) ++
  (if c.YAxisSecondary.Style.Show then [REvent.drawAxis .YSecondary] else [])

/-- The series draw loop (source lines 124-126 with drawSeries, lines
433-441) as its sequence of draw events: one per shown series in list
order, tagged with the range the series is routed to. -/
def drawSeriesEvents (c : Chart) : List REvent :=
  c.Series.enum.foldl
    (fun acc p =>
      if p.2.GetStyle.IsZero || p.2.GetStyle.Show then
        acc ++ [REvent.drawSeries p.1 p.2.GetYAxis]
      else acc)
    []

/-- drawTitle (source lines 443-460) as its draw events: one event
exactly when the title is non-empty and its style is shown. -/
def drawTitleEvents (c : Chart) : List REvent :=
  if 0 < c.Title.length && c.TitleStyle.Show then [REvent.drawTitle] else []

/-- The outcome of one render call: the ordered calls issued to the
renderer and sink, the returned error, the final contents of the three
Range objects (None when the call returned before ranges were
resolved; the explicit Range objects are shared with the caller by
reference, so these contents are caller-visible), and the final canvas
box (None when the call returned before layout). -/
structure RenderOut where
  trace : List REvent
  result : Option RenderErr
  finalRanges : Option (ContinuousRange × ContinuousRange × ContinuousRange)
  canvasBox : Option Box
deriving DecidableEq

/-- The private chart copy Render works on once setup is done: the
secondary kind tag forced and the default font resolved (source lines
74 and 81-87). -/
def Chart.renderChart (c : Chart) (env : Env) : Chart :=
  resolveFont (forceSecondaryAxisType c) env

/-- The three ranges as Render holds them right before validation:
resolved by getRanges and domained against the default canvas box
(source lines 93-96). -/
def Chart.resolvedPreRanges (c : Chart) (env : Env) :
    ContinuousRange × ContinuousRange × ContinuousRange :=
  let c := c.renderChart env
  let rs := c.getRanges
  c.setRangeDomains c.getDefaultCanvasBox rs.1 rs.2.1 rs.2.2

/-- The outcome of Render's range validation (source line 98). -/
def Chart.rangeCheckOutcome (c : Chart) (env : Env) : Option RenderErr :=
  let rs := c.resolvedPreRanges env
  (c.renderChart env).checkRanges rs.1 rs.2.1 rs.2.2

/-- The layout state Render enters the axes passes with: the default
canvas box and the domained ranges, no ticks yet. -/
def Chart.initialLayoutState (c : Chart) (env : Env) : LayoutState :=
  let rs := c.resolvedPreRanges env
  ⟨(c.renderChart env).getDefaultCanvasBox, rs.1, rs.2.1, rs.2.2, [], [], []⟩

/-- The layout state Render draws with: the initial state pushed
through the layout passes by the private chart copy, using the
resolved value formatters. -/
def Chart.finalLayout (c : Chart) (env : Env) : LayoutState :=
  let cf := c.renderChart env
  let fs := cf.getValueFormatters
  cf.resolveLayout env fs.1 fs.2.1 fs.2.2 (c.initialLayoutState env)

/-- Render (source lines 70-135): reject an empty series list; acquire
the surface; load the default font when none is set; draw the
background; resolve and validate ranges on the private chart copy
(dumping the background to the sink and returning on a range error);
run the layout passes; then draw canvas, axes, series, title and
overlay elements in order and serialize to the sink.  The pipeline
stages are the named definitions above, each translated from its own
source lines; the early-return structure here mirrors the source's. -/
def Chart.Render (c : Chart) (env : Env) : RenderOut :=
  if c.Series.length = 0 then ⟨[], some .noSeries, none, none⟩
  else
    match env.providerErr with
    | some code => ⟨[.acquireSurface], some (.provider code), none, none⟩
    | none =>
      match c.Font, env.fontErr with
      | none, some code => ⟨[.acquireSurface], some (.fontLoad code), none, none⟩
      | _, _ =>
        match c.rangeCheckOutcome env with
        | some e =>
            ⟨[.acquireSurface, .drawBackground, .save], some e,
             some (c.resolvedPreRanges env), none⟩
        | none =>
          let s := c.finalLayout env
          let cf := c.renderChart env
          ⟨[.acquireSurface, .drawBackground, .drawCanvas]
             ++ drawAxesEvents cf
             ++ drawSeriesEvents cf
             ++ drawTitleEvents cf
             ++ (List.range cf.Elements.length).map .drawElement
             ++ [.save],
           env.saveErr.map .save,
           some (s.xr, s.yr, s.yra),
           some s.canvasBox⟩

/-- The caller's view of their Chart variable around one Render call. -/
structure CallerState where
  chart : Chart
deriving DecidableEq

/-- The Go call `c.Render(rp, w)` under Go's value-receiver semantics:
the Chart struct is copied into the method, so field writes inside
Render stay private — but the explicit Range fields are interface
values holding pointers (src line 203 allocates `&ContinuousRange{}`
for the same interface), so SetMin/SetMax/SetDomain performed on a
caller-supplied Range write through to the caller's object.  The
caller's state after the call therefore keeps every struct field, with
each explicitly supplied Range replaced by its final mutated
contents. -/
def renderCall (s : CallerState) (env : Env) : CallerState × RenderOut :=
  let out := s.chart.Render env
  let c := s.chart
  let c :=
    match out.finalRanges with
    | none => c
    | some r =>
        { c with
          XAxis := { c.XAxis with Range := c.XAxis.Range.map (fun _ => r.1) },
          YAxis := { c.YAxis with Range := c.YAxis.Range.map (fun _ => r.2.1) },
          YAxisSecondary :=
            { c.YAxisSecondary with
              Range := c.YAxisSecondary.Range.map (fun _ => r.2.2) } }
  (⟨c⟩, out)

/-- The draw order the specification prescribes for a successful
render, written from the spec's words for comparison with the trace
Render emits: background fill, plot-area fill, each visible axis, each
shown series in original list order tagged with its target range, the
title exactly when non-empty and visible, the overlay elements in
order, and the final serialization. -/
def specDrawOrder (c : Chart) : List REvent :=
  [.acquireSurface, .drawBackground, .drawCanvas]
  ++ (if c.XAxis.Style.Show then [REvent.drawAxis .X] else [])
  ++ (if c.YAxis.Style.Show then [REvent.drawAxis .Y] else [])
  ++ (if c.YAxisSecondary.Style.Show then [REvent.drawAxis .YSecondary] else [])
  ++ (c.Series.enum.filter (fun p => p.2.shown)).map
       (fun p => REvent.drawSeries p.1 p.2.GetYAxis)
  ++ (if 0 < c.Title.length && c.TitleStyle.Show then [REvent.drawTitle] else [])
  ++ (List.range c.Elements.length).map REvent.drawElement
  ++ [REvent.save]

/-- Option fallback: the first operand when set, else the second. -/
def orO (a b : Option Nat) : Option Nat :=
  match a with
  | some x => some x
  | none => b

/-- The X formatter contributed by a single series, if any. -/
def seriesXFormatter (s : SeriesData) : Option Nat :=
  match s.formatters with
  | some p => some p.1
  | none => none

/-- The X formatter of the last formatter-providing series of the
list, regardless of the axis each such series targets. -/
def lastSeriesXFormatter : List SeriesData → Option Nat
  | [] => none
  | s :: l => orO (lastSeriesXFormatter l) (seriesXFormatter s)

/-- How many points a series contributes to the data scan, respecting
the bounded-before-simple capability probe order. -/
def SeriesData.pointLen (s : SeriesData) : Nat :=
  match s.boundedValues with
  | some pts => pts.length
  | none =>
      match s.values with
      | some pts => pts.length
      | none => 0

/-- A series that actually feeds the primary Y accumulators: shown,
primary-tagged, with at least one point. -/
def contributesPrimaryPoint (s : SeriesData) : Bool :=
  s.shown && s.GetYAxis == .YAxisPrimary && decide (0 < s.pointLen)

/-- A series that actually feeds the secondary Y accumulators: shown,
secondary-tagged, with at least one point. -/
def contributesSecondaryPoint (s : SeriesData) : Bool :=
  s.shown && s.GetYAxis == .YAxisSecondary && decide (0 < s.pointLen)

/-- A wholly unset style. -/
def zeroStyle : Style := ⟨false, ⟨0, 0, 0, 0⟩, false⟩

/-- An explicitly shown style. -/
def shownStyle : Style := ⟨true, ⟨0, 0, 0, 0⟩, false⟩

/-- A hidden style that is not the zero style: Show is unset but some
other attribute is, so the series is skipped rather than
default-shown. -/
def hiddenStyle : Style := ⟨false, ⟨0, 0, 0, 0⟩, true⟩

/-- An unconfigured X axis. -/
def defaultXAxis : XAxisCfg := ⟨zeroStyle, none, [], none⟩

/-- An unconfigured Y axis, with the zero-valued kind tag. -/
def defaultYAxis : YAxisCfg := ⟨zeroStyle, .YAxisPrimary, none, [], none⟩

/-- A shown primary-axis simple-value series over the given points. -/
def lineSeries (pts : List (ℚ × ℚ)) : SeriesData :=
  ⟨shownStyle, .YAxisPrimary, some pts, none, none, false⟩

/-- A 100 by 100 chart with explicit 5-pixel background padding, an
explicit font, and one shown primary series through (0,0) and
(1,100). -/
def baseChart : Chart :=
  ⟨"", zeroStyle, 100, 100, 0, ⟨false, ⟨5, 5, 5, 5⟩, false⟩, zeroStyle,
   defaultXAxis, defaultYAxis, defaultYAxis, some 1, none,
   [lineSeries [(0, 0), (1, 100)]], []⟩

/-- A benign environment: surface and font available, one constant
tick independent of the range, 10-pixel labels, annotation footprints
that occupy no extra space, serialization succeeds. -/
def baseEnv : Env :=
  ⟨none, none, 7, fun _ _ _ => [⟨0, "0"⟩], fun _ => 10, fun _ => 10,
   fun _ b => b, none⟩

/-- Explicit ticks [3,7] on the primary Y axis and [10,20] on the
secondary Y axis. -/
def tickedChart : Chart :=
  { baseChart with
    YAxis := { defaultYAxis with Ticks := [⟨3, "3"⟩, ⟨7, "7"⟩] },
    YAxisSecondary := { defaultYAxis with Ticks := [⟨10, "10"⟩, ⟨20, "20"⟩] } }

/-- A chart whose only series is hidden and tagged with the secondary
axis, with valid explicit X and primary-Y ranges and a completely
unconfigured secondary axis. -/
def hiddenSecondaryChart : Chart :=
  { baseChart with
    Series := [⟨hiddenStyle, .YAxisSecondary, some [(1, 2)], none, none, false⟩],
    XAxis := { defaultXAxis with Range := some ⟨0, 10, 0⟩ },
    YAxis := { defaultYAxis with Range := some ⟨0, 10, 0⟩ } }

/-- The base chart with its X axis shown. -/
def shownXAxisChart : Chart :=
  { baseChart with XAxis := { defaultXAxis with Style := shownStyle } }

/-- An environment whose tick labels measure a million pixels tall, so
the X axis's label strip cannot fit in a 100-pixel chart. -/
def hugeLabelEnv : Env := { baseEnv with textHeight := fun _ => 1000000 }

/-- The base chart with an explicit X range object supplied by the
caller. -/
def explicitRangeChart : Chart :=
  { baseChart with XAxis := { defaultXAxis with Range := some ⟨0, 10, 0⟩ } }

/-- The base chart with no series at all. -/
def emptySeriesChart : Chart := { baseChart with Series := [] }

/-- A chart whose only series has two points with the same X value, so
the auto-computed X range has delta zero and range validation fails. -/
def flatXChart : Chart :=
  { baseChart with Series := [lineSeries [(0, 5), (0, 6)]] }

/-- A layout state with a 90 by 90 box and resolved ranges, used to
exercise the layout cycle. -/
def sampleLayoutState : LayoutState :=
  ⟨⟨5, 5, 95, 95⟩, ⟨0, 1, 90⟩, ⟨0, 100, 90⟩, ⟨0, 0, 90⟩, [], [], []⟩

/-- Normal form of one canvas-box adjustment: the box grown outward by
fixed amounts on its left, right and bottom sides, then constrained
within the chart bounds.  getAxesAdjustedCanvasBox is proved equal to
this shape below. -/
def stepBox (bounds : Box) (l r h : Int) (b : Box) : Box :=
  b.OuterConstrain bounds ⟨b.Top, b.Left - l, b.Right + r, b.Bottom + h⟩

/-- The leftward label growth a Y axis contributes: its tick label
width when it is primary-kind (labels on the left edge), zero when
secondary-kind. -/
def yLeftGrow (cfg : YAxisCfg) (env : Env) (ts : List Tick) : Int :=
  match cfg.AxisType with
  | .YAxisPrimary => maxTickWidth env ts
  | .YAxisSecondary => 0

/-- The rightward label growth a Y axis contributes: its tick label
width when it is secondary-kind (labels on the right edge), zero when
primary-kind. -/
def yRightGrow (cfg : YAxisCfg) (env : Env) (ts : List Tick) : Int :=
  match cfg.AxisType with
  | .YAxisPrimary => 0
  | .YAxisSecondary => maxTickWidth env ts

/-- The total leftward growth of the visible Y axes. -/
def axesLeftGrow (c : Chart) (env : Env) (yt yta : List Tick) : Int :=
  max (if c.YAxis.Style.Show then yLeftGrow c.YAxis env yt else 0)
      (if c.YAxisSecondary.Style.Show then yLeftGrow c.YAxisSecondary env yta else 0)

/-- The total rightward growth of the visible Y axes. -/
def axesRightGrow (c : Chart) (env : Env) (yt yta : List Tick) : Int :=
  max (if c.YAxis.Style.Show then yRightGrow c.YAxis env yt else 0)
      (if c.YAxisSecondary.Style.Show then yRightGrow c.YAxisSecondary env yta else 0)

/-- The downward growth of the X axis when visible. -/
def axesBottomGrow (c : Chart) (env : Env) (xt : List Tick) : Int :=
  if c.XAxis.Style.Show then maxTickHeight env xt else 0

/-- One full measure/grow/constrain/re-resolve pass exactly as Render
performs it: the axes cycle run by the private chart copy with the
resolved value formatters. -/
def Chart.layoutCyclePass (c : Chart) (env : Env) (s : LayoutState) : LayoutState :=
  let cf := c.renderChart env
  let fs := cf.getValueFormatters
  cf.axesCycle env fs.1 fs.2.1 fs.2.2 s

/-! Theorems. -/

lemma formatterFold_x (l : List SeriesData) :
    ∀ acc, (l.foldl formatterStep acc).1 =
      orO (lastSeriesXFormatter l) acc.1 := by
  induction l with
  | nil => intro acc; simp [lastSeriesXFormatter, orO]
  | cons s l ih =>
      intro acc
      rw [List.foldl_cons, ih]
      cases hf : s.formatters with
      | none =>
          cases hl : lastSeriesXFormatter l <;>
            simp [lastSeriesXFormatter, seriesXFormatter, hf, formatterStep, orO, hl]
      | some p =>
          cases hax : s.GetYAxis <;> cases hl : lastSeriesXFormatter l <;>
            simp [lastSeriesXFormatter, seriesXFormatter, hf, hax, formatterStep,
              orO, hl]

/-- C10: in getValueFormatters the returned X formatter is the
explicit X-axis formatter when configured, and otherwise the X
formatter of the last series in the list that provides value
formatters, regardless of which Y axis that series targets. -/
theorem xFormatterLastProviderWins (c : Chart) :
    (c.getValueFormatters).1 =
      orO c.XAxis.ValueFormatter (lastSeriesXFormatter c.Series) := by
  unfold Chart.getValueFormatters
  cases hvf : c.XAxis.ValueFormatter <;>
    cases hl : lastSeriesXFormatter c.Series <;>
      simp [hvf, hl, orO, formatterFold_x c.Series (none, none, none)]

/-- C1: at a chart whose secondary Y axis carries explicit ticks at 10
and 20 while the primary Y axis carries ticks at 3 and 7, getRanges
resolves the secondary range to [3,7] — the bounds of the primary
axis's tick list (source line 254 iterates c.YAxis.Ticks inside the
branch guarded by c.YAxisSecondary.Ticks) — and not to the secondary
axis's own tick bounds [10,20], since 3 is not 10 and 7 is not 20. -/
theorem secondaryTicksReadPrimaryList :
    tickedChart.getRanges.2.2 = ⟨3, 7, 0⟩ ∧ (3 : ℚ) ≠ 10 ∧ (7 : ℚ) ≠ 20 :=
  ⟨by with_unfolding_all rfl, by norm_num, by norm_num⟩

/-- C2 (counterexample): a chart whose only series is hidden and
tagged with the secondary axis, with a completely unconfigured
secondary axis and valid explicit X and primary-Y ranges.  No shown
series targets the secondary axis and no explicit secondary-axis
configuration exists, yet Render fails with the secondary range
error — the unresolved secondary range does cause Render to fail,
because the guard counts hidden series too. -/
theorem hiddenSecondarySeriesTriggersCheck :
    hiddenSecondaryChart.Series.any
        (fun s => s.shown && s.GetYAxis == .YAxisSecondary) = false
    ∧ hiddenSecondaryChart.YAxisSecondary.Range = none
    ∧ hiddenSecondaryChart.YAxisSecondary.Ticks = []
    ∧ hiddenSecondaryChart.YAxisSecondary.Style = zeroStyle
    ∧ (hiddenSecondaryChart.Render baseEnv).result = some RenderErr.yaRange :=
  ⟨by with_unfolding_all rfl, rfl, rfl, rfl, by with_unfolding_all rfl⟩

/-- C2 (amended): when the X and primary-Y deltas are valid,
checkRanges accepts exactly when either no series at all — shown or
hidden — is tagged with the secondary axis, or the secondary delta is
valid; whether any secondary-axis series is shown, and whether the
secondary axis carries explicit configuration, play no role. -/
theorem checkRangesSecondaryGuardIff (c : Chart) (xr yr yra : ContinuousRange)
    (hx : invalidDelta xr = false) (hy : invalidDelta yr = false) :
    c.checkRanges xr yr yra = none ↔
      (c.hasSecondarySeries = false ∨ invalidDelta yra = false) := by
  unfold Chart.checkRanges
  rw [hx, hy]
  cases h : c.hasSecondarySeries <;> cases h2 : invalidDelta yra <;> simp [h2]

theorem checkRangesSecondaryGuardIffWitness :
    invalidDelta ⟨0, 10, 0⟩ = false
    ∧ invalidDelta ⟨0, 10, 90⟩ = false
    ∧ (hiddenSecondaryChart.checkRanges ⟨0, 10, 0⟩ ⟨0, 10, 90⟩ ⟨0, 0, 90⟩ = none ↔
        (hiddenSecondaryChart.hasSecondarySeries = false
          ∨ invalidDelta ⟨0, 0, 90⟩ = false)) :=
  ⟨by with_unfolding_all rfl, by with_unfolding_all rfl,
   checkRangesSecondaryGuardIff hiddenSecondaryChart _ _ _
     (by with_unfolding_all rfl) (by with_unfolding_all rfl)⟩

/-- C6: with an empty series list, Render returns the configuration
error with an empty call trace: the drawing surface is never acquired,
nothing is drawn, and nothing is written to the output sink. -/
theorem emptySeriesNoDrawing (c : Chart) (env : Env) (hs : c.Series = []) :
    c.Render env = ⟨[], some .noSeries, none, none⟩ := by
  unfold Chart.Render
  simp [hs]

theorem emptySeriesNoDrawingWitness :
    emptySeriesChart.Series = []
    ∧ emptySeriesChart.Render baseEnv = ⟨[], some .noSeries, none, none⟩ :=
  ⟨rfl, emptySeriesNoDrawing emptySeriesChart baseEnv rfl⟩

lemma Render_checkFail (c : Chart) (env : Env) (e : RenderErr)
    (hs : c.Series.length ≠ 0) (hp : env.providerErr = none)
    (hf : c.Font = none → env.fontErr = none)
    (hr : c.rangeCheckOutcome env = some e) :
    c.Render env = ⟨[.acquireSurface, .drawBackground, .save], some e,
      some (c.resolvedPreRanges env), none⟩ := by
  unfold Chart.Render
  rw [if_neg hs, hp]
  dsimp only
  cases hFo : c.Font with
  | none =>
      rw [hf hFo]
      dsimp only
      rw [hr]
  | some f =>
      dsimp only
      rw [hr]

lemma Render_success (c : Chart) (env : Env)
    (hs : c.Series.length ≠ 0) (hp : env.providerErr = none)
    (hf : c.Font = none → env.fontErr = none)
    (hr : c.rangeCheckOutcome env = none) :
    c.Render env =
      ⟨[.acquireSurface, .drawBackground, .drawCanvas]
         ++ drawAxesEvents (c.renderChart env)
         ++ drawSeriesEvents (c.renderChart env)
         ++ drawTitleEvents (c.renderChart env)
         ++ (List.range (c.renderChart env).Elements.length).map .drawElement
         ++ [.save],
       env.saveErr.map .save,
       some ((c.finalLayout env).xr, (c.finalLayout env).yr,
         (c.finalLayout env).yra),
       some (c.finalLayout env).canvasBox⟩ := by
  unfold Chart.Render
  rw [if_neg hs, hp]
  dsimp only
  cases hFo : c.Font with
  | none =>
      rw [hf hFo]
      dsimp only
      rw [hr]
  | some f =>
      dsimp only
      rw [hr]

lemma Render_result_none (c : Chart) (env : Env)
    (h : (c.Render env).result = none) :
    c.Series.length ≠ 0 ∧ env.providerErr = none
    ∧ (c.Font = none → env.fontErr = none)
    ∧ c.rangeCheckOutcome env = none ∧ env.saveErr = none := by
  unfold Chart.Render at h
  by_cases hs : c.Series.length = 0
  · rw [if_pos hs] at h
    simp at h
  rw [if_neg hs] at h
  cases hp : env.providerErr with
  | some code =>
      rw [hp] at h
      simp at h
  | none =>
      rw [hp] at h
      dsimp only at h
      cases hFo : c.Font with
      | none =>
          rw [hFo] at h
          cases hFe : env.fontErr with
          | some code =>
              rw [hFe] at h
              simp at h
          | none =>
              rw [hFe] at h
              dsimp only at h
              cases hr : c.rangeCheckOutcome env with
              | some e =>
                  rw [hr] at h
                  simp at h
              | none =>
                  rw [hr] at h
                  dsimp only at h
                  cases hsa : env.saveErr with
                  | some code =>
                      rw [hsa] at h
                      simp at h
                  | none => exact ⟨hs, rfl, fun _ => rfl, rfl, rfl⟩
      | some f =>
          rw [hFo] at h
          dsimp only at h
          cases hr : c.rangeCheckOutcome env with
          | some e =>
              rw [hr] at h
              simp at h
          | none =>
              rw [hr] at h
              dsimp only at h
              cases hsa : env.saveErr with
              | some code =>
                  rw [hsa] at h
                  simp at h
              | none => exact ⟨hs, rfl, fun hc => Option.noConfusion hc, rfl, rfl⟩

/-- C5: whenever range validation rejects (with any range error e),
Render's call sequence is exactly: acquire the surface, draw the
background fill, serialize the surface to the output sink — and the
range error e is still the returned result, so a background-only image
is emitted best-effort while the error reaches the caller. -/
theorem backgroundFlushedOnRangeError (c : Chart) (env : Env) (e : RenderErr)
    (hs : c.Series.length ≠ 0) (hp : env.providerErr = none)
    (hf : c.Font = none → env.fontErr = none)
    (hr : c.rangeCheckOutcome env = some e) :
    (c.Render env).trace = [.acquireSurface, .drawBackground, .save]
    ∧ (c.Render env).result = some e := by
  rw [Render_checkFail c env e hs hp hf hr]
  exact ⟨rfl, rfl⟩

theorem backgroundFlushedOnRangeErrorWitness :
    flatXChart.rangeCheckOutcome baseEnv = some RenderErr.xRange
    ∧ (flatXChart.Render baseEnv).trace = [.acquireSurface, .drawBackground, .save]
    ∧ (flatXChart.Render baseEnv).result = some RenderErr.xRange :=
  ⟨by with_unfolding_all rfl,
   (backgroundFlushedOnRangeError flatXChart baseEnv RenderErr.xRange
     (by decide) rfl (fun _ => rfl) (by with_unfolding_all rfl)).1,
   (backgroundFlushedOnRangeError flatXChart baseEnv RenderErr.xRange
     (by decide) rfl (fun _ => rfl) (by with_unfolding_all rfl)).2⟩

/-- C3 (counterexample): with a visible X axis whose tick labels
measure a million pixels tall, the layout passes collapse the canvas
box to negative height, yet Render reports no error at all: it draws
into the collapsed box and returns success.  No layout error exists in
the code. -/
theorem collapsedCanvasNoError :
    (shownXAxisChart.Render hugeLabelEnv).canvasBox = some ⟨5, 5, 95, -999905⟩
    ∧ Box.Height ⟨5, 5, 95, -999905⟩ < 0
    ∧ (shownXAxisChart.Render hugeLabelEnv).result = none :=
  ⟨by with_unfolding_all rfl, by decide, by with_unfolding_all rfl⟩

/-- C3 (amended): Render performs no layout validation: once range
validation passes, the returned result is exactly the serialization
outcome, whatever canvas box — including one with non-positive width
or height — the layout produced. -/
theorem renderNoLayoutError (c : Chart) (env : Env)
    (hs : c.Series.length ≠ 0) (hp : env.providerErr = none)
    (hf : c.Font = none → env.fontErr = none)
    (hr : c.rangeCheckOutcome env = none) :
    (c.Render env).result = env.saveErr.map RenderErr.save := by
  rw [Render_success c env hs hp hf hr]

theorem renderNoLayoutErrorWitness :
    shownXAxisChart.rangeCheckOutcome hugeLabelEnv = none
    ∧ (shownXAxisChart.Render hugeLabelEnv).result
        = hugeLabelEnv.saveErr.map RenderErr.save :=
  ⟨by with_unfolding_all rfl,
   renderNoLayoutError shownXAxisChart hugeLabelEnv (by decide) rfl
     (fun _ => rfl) (by with_unfolding_all rfl)⟩

lemma renderChart_Series (c : Chart) (env : Env) :
    (c.renderChart env).Series = c.Series := by
  unfold Chart.renderChart resolveFont forceSecondaryAxisType
  dsimp only
  cases hFo : c.Font <;> rfl

lemma renderChart_XAxis (c : Chart) (env : Env) :
    (c.renderChart env).XAxis = c.XAxis := by
  unfold Chart.renderChart resolveFont forceSecondaryAxisType
  dsimp only
  cases hFo : c.Font <;> rfl

lemma renderChart_YAxis (c : Chart) (env : Env) :
    (c.renderChart env).YAxis = c.YAxis := by
  unfold Chart.renderChart resolveFont forceSecondaryAxisType
  dsimp only
  cases hFo : c.Font <;> rfl

lemma renderChart_YAxisSecondaryStyle (c : Chart) (env : Env) :
    (c.renderChart env).YAxisSecondary.Style = c.YAxisSecondary.Style := by
  unfold Chart.renderChart resolveFont forceSecondaryAxisType
  dsimp only
  cases hFo : c.Font <;> rfl

lemma renderChart_Title (c : Chart) (env : Env) :
    (c.renderChart env).Title = c.Title := by
  unfold Chart.renderChart resolveFont forceSecondaryAxisType
  dsimp only
  cases hFo : c.Font <;> rfl

lemma renderChart_TitleStyle (c : Chart) (env : Env) :
    (c.renderChart env).TitleStyle = c.TitleStyle := by
  unfold Chart.renderChart resolveFont forceSecondaryAxisType
  dsimp only
  cases hFo : c.Font <;> rfl

lemma renderChart_Elements (c : Chart) (env : Env) :
    (c.renderChart env).Elements = c.Elements := by
  unfold Chart.renderChart resolveFont forceSecondaryAxisType
  dsimp only
  cases hFo : c.Font <;> rfl

lemma drawSeriesEvents_eq (c : Chart) :
    drawSeriesEvents c = (c.Series.enum.filter (fun p => p.2.shown)).map
      (fun p => REvent.drawSeries p.1 p.2.GetYAxis) := by
  unfold drawSeriesEvents
  have h : ∀ (l : List (Nat × SeriesData)) (acc : List REvent),
      l.foldl (fun acc p =>
          if p.2.GetStyle.IsZero || p.2.GetStyle.Show then
            acc ++ [REvent.drawSeries p.1 p.2.GetYAxis]
          else acc) acc
        = acc ++ (l.filter (fun p => p.2.shown)).map
            (fun p => REvent.drawSeries p.1 p.2.GetYAxis) := by
    intro l
    induction l with
    | nil => intro acc; simp
    | cons x l ih =>
        intro acc
        rw [List.foldl_cons]
        have hg : (x.2.GetStyle.IsZero || x.2.GetStyle.Show) = x.2.shown := rfl
        rw [hg]
        cases hx : x.2.shown with
        | true =>
            rw [if_pos rfl, ih, List.filter_cons]
            simp [hx]
        | false =>
            rw [if_neg Bool.false_ne_true, ih, List.filter_cons]
            simp [hx]
  simpa using h c.Series.enum []

/-- C8: in every successful render the trace of issued calls is
exactly the fixed order the spec prescribes: background fill, then
plot-area fill, then each visible axis, then each shown series in the
series list's original order tagged with the range its axis tag routes
it to, then the title exactly when non-empty and visible, then the
overlay elements in their given order, and finally the serialization
of the surface to the sink. -/
theorem drawOrderFixed (c : Chart) (env : Env)
    (h : (c.Render env).result = none) :
    (c.Render env).trace = specDrawOrder c := by
  obtain ⟨hs, hp, hf, hr, hsa⟩ := Render_result_none c env h
  rw [Render_success c env hs hp hf hr]
  unfold specDrawOrder drawAxesEvents drawTitleEvents
  rw [renderChart_XAxis, renderChart_YAxis, renderChart_YAxisSecondaryStyle,
    renderChart_Title, renderChart_TitleStyle, renderChart_Elements,
    show drawSeriesEvents (c.renderChart env) = drawSeriesEvents c by
      unfold drawSeriesEvents; rw [renderChart_Series],
    drawSeriesEvents_eq]
  simp [List.append_assoc]

theorem drawOrderFixedWitness :
    (baseChart.Render baseEnv).result = none
    ∧ (baseChart.Render baseEnv).trace = specDrawOrder baseChart :=
  ⟨by with_unfolding_all rfl,
   drawOrderFixed baseChart baseEnv (by with_unfolding_all rfl)⟩

lemma GetRoundToForDelta_pos (delta : ℚ) : 0 < GetRoundToForDelta delta := by
  unfold GetRoundToForDelta
  by_cases h1 : (10000000000 : ℚ) ≤ delta
  · rw [if_pos h1]; norm_num
  rw [if_neg h1]
  by_cases h2 : (1000000000 : ℚ) ≤ delta
  · rw [if_pos h2]; norm_num
  rw [if_neg h2]
  by_cases h3 : (100000000 : ℚ) ≤ delta
  · rw [if_pos h3]; norm_num
  rw [if_neg h3]
  by_cases h4 : (10000000 : ℚ) ≤ delta
  · rw [if_pos h4]; norm_num
  rw [if_neg h4]
  by_cases h5 : (1000000 : ℚ) ≤ delta
  · rw [if_pos h5]; norm_num
  rw [if_neg h5]
  by_cases h6 : (100000 : ℚ) ≤ delta
  · rw [if_pos h6]; norm_num
  rw [if_neg h6]
  by_cases h7 : (10000 : ℚ) ≤ delta
  · rw [if_pos h7]; norm_num
  rw [if_neg h7]
  by_cases h8 : (1000 : ℚ) ≤ delta
  · rw [if_pos h8]; norm_num
  rw [if_neg h8]
  by_cases h9 : (100 : ℚ) ≤ delta
  · rw [if_pos h9]; norm_num
  rw [if_neg h9]
  by_cases h10 : (10 : ℚ) ≤ delta
  · rw [if_pos h10]; norm_num
  rw [if_neg h10]
  by_cases h11 : (1 : ℚ) ≤ delta
  · rw [if_pos h11]; norm_num
  rw [if_neg h11]
  by_cases h12 : (1 / 10 : ℚ) ≤ delta
  · rw [if_pos h12]; norm_num
  rw [if_neg h12]
  by_cases h13 : (1 / 100 : ℚ) ≤ delta
  · rw [if_pos h13]; norm_num
  rw [if_neg h13]
  by_cases h14 : (1 / 1000 : ℚ) ≤ delta
  · rw [if_pos h14]; norm_num
  rw [if_neg h14]
  by_cases h15 : (1 / 10000 : ℚ) ≤ delta
  · rw [if_pos h15]; norm_num
  rw [if_neg h15]
  norm_num

lemma RoundDown_le (v r : ℚ) (hr : 0 < r) : RoundDown v r ≤ v := by
  unfold RoundDown
  calc (⌊v / r⌋ : ℚ) * r ≤ (v / r) * r :=
        mul_le_mul_of_nonneg_right (Int.floor_le (v / r)) (le_of_lt hr)
    _ = v := div_mul_cancel₀ v (ne_of_gt hr)

lemma le_RoundUp (v r : ℚ) (hr : 0 < r) : v ≤ RoundUp v r := by
  unfold RoundUp
  calc v = (v / r) * r := (div_mul_cancel₀ v (ne_of_gt hr)).symm
    _ ≤ (⌈v / r⌉ : ℚ) * r :=
        mul_le_mul_of_nonneg_right (Int.le_ceil (v / r)) (le_of_lt hr)

lemma foldl_preserve {α σ : Type} (f : σ → α → σ) (I : σ → Prop)
    (hf : ∀ s a, I s → I (f s a)) :
    ∀ (l : List α) (s : σ), I s → I (l.foldl f s) := by
  intro l
  induction l with
  | nil => intro s h; simpa using h
  | cons a l ih =>
      intro s h
      rw [List.foldl_cons]
      exact ih _ (hf s a h)

lemma foldValuePoint_inv (ax : YAxisType) (st : ScanState) (p : ℚ × ℚ)
    (h : st.miny ≤ st.maxy) :
    (foldValuePoint ax st p).miny ≤ (foldValuePoint ax st p).maxy := by
  cases ax with
  | YAxisPrimary =>
      dsimp [foldValuePoint]
      exact le_trans (min_le_left _ _) (le_trans h (le_max_left _ _))
  | YAxisSecondary => exact h

lemma foldValuePoint_primary (st : ScanState) (p : ℚ × ℚ) :
    (foldValuePoint .YAxisPrimary st p).miny ≤ (foldValuePoint .YAxisPrimary st p).maxy := by
  dsimp [foldValuePoint]
  exact le_trans (min_le_right _ _) (le_max_right _ _)

lemma foldBoundedPoint_inv (ax : YAxisType) (st : ScanState) (p : ℚ × ℚ × ℚ)
    (h : st.miny ≤ st.maxy) :
    (foldBoundedPoint ax st p).miny ≤ (foldBoundedPoint ax st p).maxy := by
  cases ax with
  | YAxisPrimary =>
      dsimp [foldBoundedPoint]
      exact le_trans (min_le_left _ _)
        (le_trans (min_le_left _ _)
          (le_trans h (le_trans (le_max_left _ _) (le_max_left _ _))))
  | YAxisSecondary => exact h

lemma foldBoundedPoint_primary (st : ScanState) (p : ℚ × ℚ × ℚ) :
    (foldBoundedPoint .YAxisPrimary st p).miny ≤ (foldBoundedPoint .YAxisPrimary st p).maxy := by
  dsimp [foldBoundedPoint]
  exact le_trans (min_le_right _ _) (le_max_right _ _)

lemma scanSeries_inv (st : ScanState) (s : SeriesData)
    (h : st.miny ≤ st.maxy) : (scanSeries st s).miny ≤ (scanSeries st s).maxy := by
  unfold scanSeries
  split
  · cases hb : s.boundedValues with
    | some pts =>
        exact foldl_preserve _ (fun st => st.miny ≤ st.maxy)
          (fun st p hi => foldBoundedPoint_inv _ st p hi) pts st h
    | none =>
        cases hv : s.values with
        | some pts =>
            exact foldl_preserve _ (fun st => st.miny ≤ st.maxy)
              (fun st p hi => foldValuePoint_inv _ st p hi) pts st h
        | none => exact h
  · exact h

lemma scanSeries_establish (st : ScanState) (s : SeriesData)
    (hc : contributesPrimaryPoint s = true) :
    (scanSeries st s).miny ≤ (scanSeries st s).maxy := by
  unfold contributesPrimaryPoint at hc
  rw [Bool.and_eq_true, Bool.and_eq_true] at hc
  obtain ⟨⟨hsh, hax⟩, hlen⟩ := hc
  have hax2 : s.GetYAxis = .YAxisPrimary := by
    cases h : s.GetYAxis
    · rfl
    · rw [h] at hax; exact absurd hax (by decide)
  unfold scanSeries
  rw [if_pos (by exact hsh)]
  cases hb : s.boundedValues with
  | some pts =>
      cases pts with
      | nil =>
          exfalso
          unfold SeriesData.pointLen at hlen
          rw [hb] at hlen
          simp at hlen
      | cons p rest =>
          dsimp only
          rw [List.foldl_cons, hax2]
          exact foldl_preserve _ (fun st => st.miny ≤ st.maxy)
            (fun st q hi => foldBoundedPoint_inv _ st q hi) rest _
            (foldBoundedPoint_primary st p)
  | none =>
      cases hv : s.values with
      | some pts =>
          cases pts with
          | nil =>
              exfalso
              unfold SeriesData.pointLen at hlen
              rw [hb, hv] at hlen
              simp at hlen
          | cons p rest =>
              dsimp only
              rw [List.foldl_cons, hax2]
              exact foldl_preserve _ (fun st => st.miny ≤ st.maxy)
                (fun st q hi => foldValuePoint_inv _ st q hi) rest _
                (foldValuePoint_primary st p)
      | none =>
          exfalso
          unfold SeriesData.pointLen at hlen
          rw [hb, hv] at hlen
          simp at hlen

lemma scan_any_le (l : List SeriesData)
    (h : l.any contributesPrimaryPoint = true) :
    ∀ st, (l.foldl scanSeries st).miny ≤ (l.foldl scanSeries st).maxy := by
  induction l with
  | nil => simp at h
  | cons s l ih =>
      intro st
      rw [List.foldl_cons]
      rw [List.any_cons, Bool.or_eq_true] at h
      cases h with
      | inl hs =>
          exact foldl_preserve _ (fun st => st.miny ≤ st.maxy)
            (fun st q hi => scanSeries_inv st q hi) l _
            (scanSeries_establish st s hs)
      | inr hl => exact ih hl _

lemma foldValuePoint_inv2 (ax : YAxisType) (st : ScanState) (p : ℚ × ℚ)
    (h : st.minya ≤ st.maxya) :
    (foldValuePoint ax st p).minya ≤ (foldValuePoint ax st p).maxya := by
  cases ax with
  | YAxisPrimary => exact h
  | YAxisSecondary =>
      dsimp [foldValuePoint]
      exact le_trans (min_le_left _ _) (le_trans h (le_max_left _ _))

lemma foldValuePoint_secondary (st : ScanState) (p : ℚ × ℚ) :
    (foldValuePoint .YAxisSecondary st p).minya ≤ (foldValuePoint .YAxisSecondary st p).maxya := by
  dsimp [foldValuePoint]
  exact le_trans (min_le_right _ _) (le_max_right _ _)

lemma foldBoundedPoint_inv2 (ax : YAxisType) (st : ScanState) (p : ℚ × ℚ × ℚ)
    (h : st.minya ≤ st.maxya) :
    (foldBoundedPoint ax st p).minya ≤ (foldBoundedPoint ax st p).maxya := by
  cases ax with
  | YAxisPrimary => exact h
  | YAxisSecondary =>
      dsimp [foldBoundedPoint]
      exact le_trans (min_le_left _ _)
        (le_trans (min_le_left _ _)
          (le_trans h (le_trans (le_max_left _ _) (le_max_left _ _))))

lemma foldBoundedPoint_secondary (st : ScanState) (p : ℚ × ℚ × ℚ) :
    (foldBoundedPoint .YAxisSecondary st p).minya ≤ (foldBoundedPoint .YAxisSecondary st p).maxya := by
  dsimp [foldBoundedPoint]
  exact le_trans (min_le_right _ _) (le_max_right _ _)

lemma scanSeries_inv2 (st : ScanState) (s : SeriesData)
    (h : st.minya ≤ st.maxya) : (scanSeries st s).minya ≤ (scanSeries st s).maxya := by
  unfold scanSeries
  split
  · cases hb : s.boundedValues with
    | some pts =>
        exact foldl_preserve _ (fun st => st.minya ≤ st.maxya)
          (fun st p hi => foldBoundedPoint_inv2 _ st p hi) pts st h
    | none =>
        cases hv : s.values with
        | some pts =>
            exact foldl_preserve _ (fun st => st.minya ≤ st.maxya)
              (fun st p hi => foldValuePoint_inv2 _ st p hi) pts st h
        | none => exact h
  · exact h

lemma scanSeries_establish2 (st : ScanState) (s : SeriesData)
    (hc : contributesSecondaryPoint s = true) :
    (scanSeries st s).minya ≤ (scanSeries st s).maxya := by
  unfold contributesSecondaryPoint at hc
  rw [Bool.and_eq_true, Bool.and_eq_true] at hc
  obtain ⟨⟨hsh, hax⟩, hlen⟩ := hc
  have hax2 : s.GetYAxis = .YAxisSecondary := by
    cases h : s.GetYAxis
    · rw [h] at hax; exact absurd hax (by decide)
    · rfl
  unfold scanSeries
  rw [if_pos (by exact hsh)]
  cases hb : s.boundedValues with
  | some pts =>
      cases pts with
      | nil =>
          exfalso
          unfold SeriesData.pointLen at hlen
          rw [hb] at hlen
          simp at hlen
      | cons p rest =>
          dsimp only
          rw [List.foldl_cons, hax2]
          exact foldl_preserve _ (fun st => st.minya ≤ st.maxya)
            (fun st q hi => foldBoundedPoint_inv2 _ st q hi) rest _
            (foldBoundedPoint_secondary st p)
  | none =>
      cases hv : s.values with
      | some pts =>
          cases pts with
          | nil =>
              exfalso
              unfold SeriesData.pointLen at hlen
              rw [hb, hv] at hlen
              simp at hlen
          | cons p rest =>
              dsimp only
              rw [List.foldl_cons, hax2]
              exact foldl_preserve _ (fun st => st.minya ≤ st.maxya)
                (fun st q hi => foldValuePoint_inv2 _ st q hi) rest _
                (foldValuePoint_secondary st p)
      | none =>
          exfalso
          unfold SeriesData.pointLen at hlen
          rw [hb, hv] at hlen
          simp at hlen

lemma scan_any_le2 (l : List SeriesData)
    (h : l.any contributesSecondaryPoint = true) :
    ∀ st, (l.foldl scanSeries st).minya ≤ (l.foldl scanSeries st).maxya := by
  induction l with
  | nil => simp at h
  | cons s l ih =>
      intro st
      rw [List.foldl_cons]
      rw [List.any_cons, Bool.or_eq_true] at h
      cases h with
      | inl hs =>
          exact foldl_preserve _ (fun st => st.minya ≤ st.maxya)
            (fun st q hi => scanSeries_inv2 st q hi) l _
            (scanSeries_establish2 st s hs)
      | inr hl => exact ih hl _

lemma foldValuePoint_flag (ax : YAxisType) (st : ScanState) (p : ℚ × ℚ)
    (h : st.seriesMappedToSecondaryAxis = true) :
    (foldValuePoint ax st p).seriesMappedToSecondaryAxis = true := by
  cases ax with
  | YAxisPrimary => exact h
  | YAxisSecondary => rfl

lemma foldBoundedPoint_flag (ax : YAxisType) (st : ScanState) (p : ℚ × ℚ × ℚ)
    (h : st.seriesMappedToSecondaryAxis = true) :
    (foldBoundedPoint ax st p).seriesMappedToSecondaryAxis = true := by
  cases ax with
  | YAxisPrimary => exact h
  | YAxisSecondary => rfl

lemma scanSeries_flag (st : ScanState) (s : SeriesData)
    (h : st.seriesMappedToSecondaryAxis = true) :
    (scanSeries st s).seriesMappedToSecondaryAxis = true := by
  unfold scanSeries
  split
  · cases hb : s.boundedValues with
    | some pts =>
        exact foldl_preserve _ (fun st => st.seriesMappedToSecondaryAxis = true)
          (fun st p hi => foldBoundedPoint_flag _ st p hi) pts st h
    | none =>
        cases hv : s.values with
        | some pts =>
            exact foldl_preserve _ (fun st => st.seriesMappedToSecondaryAxis = true)
              (fun st p hi => foldValuePoint_flag _ st p hi) pts st h
        | none => exact h
  · exact h

lemma scanSeries_flag_establish (st : ScanState) (s : SeriesData)
    (hc : contributesSecondaryPoint s = true) :
    (scanSeries st s).seriesMappedToSecondaryAxis = true := by
  unfold contributesSecondaryPoint at hc
  rw [Bool.and_eq_true, Bool.and_eq_true] at hc
  obtain ⟨⟨hsh, hax⟩, hlen⟩ := hc
  have hax2 : s.GetYAxis = .YAxisSecondary := by
    cases h : s.GetYAxis
    · rw [h] at hax; exact absurd hax (by decide)
    · rfl
  unfold scanSeries
  rw [if_pos (by exact hsh)]
  cases hb : s.boundedValues with
  | some pts =>
      cases pts with
      | nil =>
          exfalso
          unfold SeriesData.pointLen at hlen
          rw [hb] at hlen
          simp at hlen
      | cons p rest =>
          dsimp only
          rw [List.foldl_cons, hax2]
          exact foldl_preserve _ (fun st => st.seriesMappedToSecondaryAxis = true)
            (fun st q hi => foldBoundedPoint_flag _ st q hi) rest
            (foldBoundedPoint .YAxisSecondary st p) rfl
  | none =>
      cases hv : s.values with
      | some pts =>
          cases pts with
          | nil =>
              exfalso
              unfold SeriesData.pointLen at hlen
              rw [hb, hv] at hlen
              simp at hlen
          | cons p rest =>
              dsimp only
              rw [List.foldl_cons, hax2]
              exact foldl_preserve _ (fun st => st.seriesMappedToSecondaryAxis = true)
                (fun st q hi => foldValuePoint_flag _ st q hi) rest
                (foldValuePoint .YAxisSecondary st p) rfl
      | none =>
          exfalso
          unfold SeriesData.pointLen at hlen
          rw [hb, hv] at hlen
          simp at hlen

lemma scan_any_flag (l : List SeriesData)
    (h : l.any contributesSecondaryPoint = true) :
    ∀ st, (l.foldl scanSeries st).seriesMappedToSecondaryAxis = true := by
  induction l with
  | nil => simp at h
  | cons s l ih =>
      intro st
      rw [List.foldl_cons]
      rw [List.any_cons, Bool.or_eq_true] at h
      cases h with
      | inl hs =>
          exact foldl_preserve _ (fun st => st.seriesMappedToSecondaryAxis = true)
            (fun st q hi => scanSeries_flag st q hi) l _
            (scanSeries_flag_establish st s hs)
      | inr hl => exact ih hl _

/-- C4: the auto-computed X range is never nice-rounded: when the X
axis has no explicit ticks and no explicit non-zero Range it equals
exactly the folded X minimum and maximum; and for each Y axis
(primary and secondary) with no explicit ticks and no explicit
non-zero Range, whenever at least one shown series contributes at
least one point to that axis, the range getRanges auto-computes for it
satisfies rounded-min ≤ folded data min ≤ folded data max ≤
rounded-max. -/
theorem autoRangeBounds (c : Chart)
    (hxt : c.XAxis.Ticks = [])
    (hxz : (initialRange c.XAxis.Range).IsZero = true) :
    (c.getRanges.1.Min = (scanSeriesList c.Series).minx
      ∧ c.getRanges.1.Max = (scanSeriesList c.Series).maxx)
    ∧ (c.YAxis.Ticks = [] →
        (initialRange c.YAxis.Range).IsZero = true →
        c.Series.any contributesPrimaryPoint = true →
        c.getRanges.2.1.Min ≤ (scanSeriesList c.Series).miny
          ∧ (scanSeriesList c.Series).miny ≤ (scanSeriesList c.Series).maxy
          ∧ (scanSeriesList c.Series).maxy ≤ c.getRanges.2.1.Max)
    ∧ (c.YAxisSecondary.Ticks = [] →
        (initialRange c.YAxisSecondary.Range).IsZero = true →
        c.Series.any contributesSecondaryPoint = true →
        c.getRanges.2.2.Min ≤ (scanSeriesList c.Series).minya
          ∧ (scanSeriesList c.Series).minya ≤ (scanSeriesList c.Series).maxya
          ∧ (scanSeriesList c.Series).maxya ≤ c.getRanges.2.2.Max) := by
  refine ⟨?_, ?_, ?_⟩
  · unfold Chart.getRanges
    rw [hxt]
    simp only [List.length_nil, lt_irrefl, if_false]
    rw [hxz]
    dsimp only [ContinuousRange.SetMin, ContinuousRange.SetMax, if_true,
      scanSeriesList]
    exact ⟨rfl, rfl⟩
  · intro hyt hyz hp
    have hst : ((c.Series.foldl scanSeries scanInit).miny
        ≤ (c.Series.foldl scanSeries scanInit).maxy) :=
      scan_any_le c.Series hp scanInit
    unfold Chart.getRanges
    rw [hyt]
    simp only [List.length_nil, lt_irrefl, if_false]
    rw [hyz]
    dsimp only [ContinuousRange.SetMin, ContinuousRange.SetMax,
      ContinuousRange.GetDelta, if_true, scanSeriesList]
    exact ⟨RoundDown_le _ _ (GetRoundToForDelta_pos _), hst,
      le_RoundUp _ _ (GetRoundToForDelta_pos _)⟩
  · intro hyat hyaz hpa
    have hst : ((c.Series.foldl scanSeries scanInit).minya
        ≤ (c.Series.foldl scanSeries scanInit).maxya) :=
      scan_any_le2 c.Series hpa scanInit
    have hflag : ((c.Series.foldl scanSeries scanInit).seriesMappedToSecondaryAxis
        = true) :=
      scan_any_flag c.Series hpa scanInit
    unfold Chart.getRanges
    rw [hyat]
    simp only [List.length_nil, lt_irrefl, if_false]
    dsimp only [scanSeriesList]
    rw [hflag, hyaz]
    dsimp only [ContinuousRange.SetMin, ContinuousRange.SetMax,
      ContinuousRange.GetDelta, Bool.and_self, if_true]
    exact ⟨RoundDown_le _ _ (GetRoundToForDelta_pos _), hst,
      le_RoundUp _ _ (GetRoundToForDelta_pos _)⟩

theorem autoRangeBoundsWitness :
    (baseChart.XAxis.Ticks = []
      ∧ (initialRange baseChart.XAxis.Range).IsZero = true)
    ∧ ((baseChart.getRanges.1.Min = (scanSeriesList baseChart.Series).minx
         ∧ baseChart.getRanges.1.Max = (scanSeriesList baseChart.Series).maxx)
       ∧ (baseChart.YAxis.Ticks = [] →
           (initialRange baseChart.YAxis.Range).IsZero = true →
           baseChart.Series.any contributesPrimaryPoint = true →
           baseChart.getRanges.2.1.Min ≤ (scanSeriesList baseChart.Series).miny
             ∧ (scanSeriesList baseChart.Series).miny
                 ≤ (scanSeriesList baseChart.Series).maxy
             ∧ (scanSeriesList baseChart.Series).maxy
                 ≤ baseChart.getRanges.2.1.Max)
       ∧ (baseChart.YAxisSecondary.Ticks = [] →
           (initialRange baseChart.YAxisSecondary.Range).IsZero = true →
           baseChart.Series.any contributesSecondaryPoint = true →
           baseChart.getRanges.2.2.Min ≤ (scanSeriesList baseChart.Series).minya
             ∧ (scanSeriesList baseChart.Series).minya
                 ≤ (scanSeriesList baseChart.Series).maxya
             ∧ (scanSeriesList baseChart.Series).maxya
                 ≤ baseChart.getRanges.2.2.Max)) :=
  ⟨⟨rfl, by with_unfolding_all rfl⟩,
   autoRangeBounds baseChart rfl (by with_unfolding_all rfl)⟩

/-- C9 (counterexample): Render does leak a mutation to the caller.
With a caller-supplied X Range object [0,10] (domain 0), the object
the caller still holds after Render has its domain overwritten with
the canvas width 90: Range interface values are pointers (src line 203
allocates `&ContinuousRange{}` for the same interface type), and
setRangeDomains writes through them.  The caller's chart is therefore
not unchanged. -/
theorem explicitRangeMutatedByRender :
    (renderCall ⟨explicitRangeChart⟩ baseEnv).1 ≠ ⟨explicitRangeChart⟩
    ∧ (renderCall ⟨explicitRangeChart⟩ baseEnv).1.chart.XAxis.Range
        = some ⟨0, 10, 90⟩
    ∧ explicitRangeChart.XAxis.Range = some ⟨0, 10, 0⟩ :=
  ⟨by with_unfolding_all decide, by with_unfolding_all rfl, rfl⟩

/-- C9 (amended): Render never mutates the caller's Chart struct
fields themselves — the forced secondary kind tag and the cached
default font live on the private copy, which does carry the forced
tag — so when the caller supplies no explicit Range objects their
entire chart is unchanged; but a caller-supplied explicit Range object
is shared by reference and is mutated by the pipeline. -/
theorem renderPreservesCallerChart (s : CallerState) (env : Env)
    (hx : s.chart.XAxis.Range = none)
    (hy : s.chart.YAxis.Range = none)
    (hya : s.chart.YAxisSecondary.Range = none) :
    (renderCall s env).1 = s
    ∧ (s.chart.renderChart env).YAxisSecondary.AxisType = .YAxisSecondary := by
  obtain ⟨c⟩ := s
  obtain ⟨T, TS, W, H, D, Bg, Cv, XA, YA, YAS, F, dF, S, E⟩ := c
  obtain ⟨xs, xr, xt, xvf⟩ := XA
  obtain ⟨ys, yat, yr, ytk, yvf⟩ := YA
  obtain ⟨zs, zat, zr, ztk, zvf⟩ := YAS
  dsimp only at hx hy hya
  subst hx
  subst hy
  subst hya
  constructor
  · unfold renderCall
    dsimp only
    cases h : (Chart.Render ⟨T, TS, W, H, D, Bg, Cv, ⟨xs, none, xt, xvf⟩,
        ⟨ys, yat, none, ytk, yvf⟩, ⟨zs, zat, none, ztk, zvf⟩, F, dF, S, E⟩ env).finalRanges with
    | none => rfl
    | some r => rfl
  · unfold Chart.renderChart resolveFont forceSecondaryAxisType
    dsimp only
    cases hFo : F <;> rfl

theorem renderPreservesCallerChartWitness :
    (baseChart.XAxis.Range = none ∧ baseChart.YAxis.Range = none
      ∧ baseChart.YAxisSecondary.Range = none)
    ∧ ((renderCall ⟨baseChart⟩ baseEnv).1 = ⟨baseChart⟩
        ∧ (baseChart.renderChart baseEnv).YAxisSecondary.AxisType
            = .YAxisSecondary) :=
  ⟨⟨rfl, rfl, rfl⟩,
   renderPreservesCallerChart ⟨baseChart⟩ baseEnv rfl rfl rfl⟩

lemma foldl_max_le_init (f : Tick → Int) :
    ∀ (ts : List Tick) (a : Int), a ≤ ts.foldl (fun m t => max m (f t)) a := by
  intro ts
  induction ts with
  | nil => intro a; exact le_refl a
  | cons t ts ih =>
      intro a
      rw [List.foldl_cons]
      exact le_trans (le_max_left a (f t)) (ih (max a (f t)))

lemma maxTickWidth_nonneg (env : Env) (ts : List Tick) : 0 ≤ maxTickWidth env ts := by
  unfold maxTickWidth
  exact foldl_max_le_init (fun t => env.textWidth t.Label) ts 0

lemma maxTickHeight_nonneg (env : Env) (ts : List Tick) : 0 ≤ maxTickHeight env ts := by
  unfold maxTickHeight
  exact foldl_max_le_init (fun t => env.textHeight t.Label) ts 0

lemma yLeftGrow_nonneg (cfg : YAxisCfg) (env : Env) (ts : List Tick) :
    0 ≤ yLeftGrow cfg env ts := by
  unfold yLeftGrow
  cases h : cfg.AxisType
  · exact maxTickWidth_nonneg env ts
  · exact le_refl 0

lemma yRightGrow_nonneg (cfg : YAxisCfg) (env : Env) (ts : List Tick) :
    0 ≤ yRightGrow cfg env ts := by
  unfold yRightGrow
  cases h : cfg.AxisType
  · exact le_refl 0
  · exact maxTickWidth_nonneg env ts

lemma axesLeftGrow_nonneg (c : Chart) (env : Env) (yt yta : List Tick) :
    0 ≤ axesLeftGrow c env yt yta := by
  unfold axesLeftGrow
  have h1 : (0 : Int) ≤ if c.YAxis.Style.Show then yLeftGrow c.YAxis env yt else 0 := by
    split_ifs
    · exact yLeftGrow_nonneg _ _ _
    · exact le_refl 0
  exact le_trans h1 (le_max_left _ _)

lemma axesRightGrow_nonneg (c : Chart) (env : Env) (yt yta : List Tick) :
    0 ≤ axesRightGrow c env yt yta := by
  unfold axesRightGrow
  have h1 : (0 : Int) ≤ if c.YAxis.Style.Show then yRightGrow c.YAxis env yt else 0 := by
    split_ifs
    · exact yRightGrow_nonneg _ _ _
    · exact le_refl 0
  exact le_trans h1 (le_max_left _ _)

lemma axesBottomGrow_nonneg (c : Chart) (env : Env) (xt : List Tick) :
    0 ≤ axesBottomGrow c env xt := by
  unfold axesBottomGrow
  split_ifs
  · exact maxTickHeight_nonneg _ _
  · exact le_refl 0

lemma adjusted_char (c : Chart) (env : Env) (b : Box) (xt yt yta : List Tick) :
    c.getAxesAdjustedCanvasBox env b xt yt yta
      = stepBox c.Box (axesLeftGrow c env yt yta) (axesRightGrow c env yt yta)
          (axesBottomGrow c env xt) b := by
  have hw1 := maxTickWidth_nonneg env yt
  have hw2 := maxTickWidth_nonneg env yta
  have hh := maxTickHeight_nonneg env xt
  unfold Chart.getAxesAdjustedCanvasBox stepBox axesLeftGrow axesRightGrow
    axesBottomGrow Box.OuterConstrain Box.Grow xAxisMeasure yAxisMeasure
    yLeftGrow yRightGrow
  cases hx : c.XAxis.Style.Show <;>
    cases hy : c.YAxis.Style.Show <;>
      cases hya : c.YAxisSecondary.Style.Show <;>
        cases t1 : c.YAxis.AxisType <;>
          cases t2 : c.YAxisSecondary.AxisType <;>
            simp [Box.mk.injEq] <;> split_ifs <;> omega

lemma stepBox_idem (bounds : Box) (l r h : Int) (b : Box) :
    stepBox bounds l r h (stepBox bounds l r h b) = stepBox bounds l r h b := by
  unfold stepBox Box.OuterConstrain
  dsimp only
  simp only [Box.mk.injEq]
  refine ⟨?_, ?_, ?_, ?_⟩ <;> split_ifs <;> omega

lemma adjust_idem (c : Chart) (env : Env) (xt yt yta : List Tick) (b : Box) :
    c.getAxesAdjustedCanvasBox env (c.getAxesAdjustedCanvasBox env b xt yt yta) xt yt yta
      = c.getAxesAdjustedCanvasBox env b xt yt yta := by
  rw [adjusted_char, adjusted_char]
  exact stepBox_idem c.Box _ _ _ b

lemma getAxesTicks_setDomain (c : Chart) (env : Env)
    (hdom : ∀ k r f d, env.genTicks k (r.SetDomain d) f = env.genTicks k r f)
    (xr yr yra : ContinuousRange) (xf yf yfa : Option Nat) (w h1 h2 : Int) :
    c.getAxesTicks env (xr.SetDomain w) (yr.SetDomain h1) (yra.SetDomain h2) xf yf yfa
      = c.getAxesTicks env xr yr yra xf yf yfa := by
  unfold Chart.getAxesTicks
  rw [hdom, hdom, hdom]

lemma axesCycle_box_stable (c : Chart) (env : Env) (xf yf yfa : Option Nat)
    (hdom : ∀ k r f d, env.genTicks k (r.SetDomain d) f = env.genTicks k r f)
    (s : LayoutState) :
    (c.axesCycle env xf yf yfa (c.axesCycle env xf yf yfa s)).canvasBox
      = (c.axesCycle env xf yf yfa s).canvasBox := by
  unfold Chart.axesCycle Chart.setRangeDomains
  dsimp only
  rw [show ∀ a b g : ContinuousRange, ∀ w hh : Int,
      c.getAxesTicks env (a.SetDomain w) (b.SetDomain hh) (g.SetDomain hh) xf yf yfa
        = c.getAxesTicks env a b g xf yf yfa from
    fun a b g w hh => getAxesTicks_setDomain c env hdom a b g xf yf yfa w hh hh]
  exact adjust_idem c env _ _ _ s.canvasBox

lemma renderChart_hasAxes (c : Chart) (env : Env) :
    (c.renderChart env).hasAxes = c.hasAxes := by
  unfold Chart.hasAxes
  rw [renderChart_XAxis, renderChart_YAxis, renderChart_YAxisSecondaryStyle]

lemma renderChart_hasAnnotationSeries (c : Chart) (env : Env) :
    (c.renderChart env).hasAnnotationSeries = c.hasAnnotationSeries := by
  unfold Chart.hasAnnotationSeries
  rw [renderChart_Series]

lemma resolveLayout_eq_two_cycles (c : Chart) (env : Env) (xf yf yfa : Option Nat)
    (s0 : LayoutState) (hax : c.hasAxes = true)
    (hann : c.hasAnnotationSeries = false) :
    c.resolveLayout env xf yf yfa s0
      = c.axesCycle env xf yf yfa (c.axesCycle env xf yf yfa s0) := by
  unfold Chart.resolveLayout Chart.axesCycle
  rw [hax, hann]
  simp

/-- C7: under Render's preconditions, when any axis is visible, no
annotation series is shown and tick generation does not depend on a
range's pixel domain (the only channel through which the canvas box
feeds back into tick sets), the canvas box Render draws with is
exactly the measure/grow/constrain/re-resolve cycle applied twice —
not iterated further — to the initial layout state, and applying the
cycle a third time leaves that canvas box unchanged. -/
theorem layoutTwoPassStable (c : Chart) (env : Env)
    (hs : c.Series.length ≠ 0) (hp : env.providerErr = none)
    (hf : c.Font = none → env.fontErr = none)
    (hr : c.rangeCheckOutcome env = none)
    (hax : c.hasAxes = true)
    (hann : c.hasAnnotationSeries = false)
    (hdom : ∀ k r f d, env.genTicks k (r.SetDomain d) f = env.genTicks k r f) :
    (c.Render env).canvasBox
      = some (c.layoutCyclePass env (c.layoutCyclePass env
          (c.initialLayoutState env))).canvasBox
    ∧ (c.layoutCyclePass env (c.layoutCyclePass env (c.layoutCyclePass env
          (c.initialLayoutState env)))).canvasBox
      = (c.layoutCyclePass env (c.layoutCyclePass env
          (c.initialLayoutState env))).canvasBox := by
  constructor
  · rw [Render_success c env hs hp hf hr]
    unfold Chart.finalLayout Chart.layoutCyclePass
    dsimp only
    rw [resolveLayout_eq_two_cycles (c.renderChart env) env _ _ _
      (c.initialLayoutState env)
      (by rw [renderChart_hasAxes]; exact hax)
      (by rw [renderChart_hasAnnotationSeries]; exact hann)]
  · unfold Chart.layoutCyclePass
    dsimp only
    exact axesCycle_box_stable (c.renderChart env) env _ _ _ hdom _

theorem layoutTwoPassStableWitness :
    shownXAxisChart.rangeCheckOutcome baseEnv = none
    ∧ shownXAxisChart.hasAxes = true
    ∧ shownXAxisChart.hasAnnotationSeries = false
    ∧ ((shownXAxisChart.Render baseEnv).canvasBox
        = some (shownXAxisChart.layoutCyclePass baseEnv
            (shownXAxisChart.layoutCyclePass baseEnv
              (shownXAxisChart.initialLayoutState baseEnv))).canvasBox
      ∧ (shownXAxisChart.layoutCyclePass baseEnv
          (shownXAxisChart.layoutCyclePass baseEnv
            (shownXAxisChart.layoutCyclePass baseEnv
              (shownXAxisChart.initialLayoutState baseEnv)))).canvasBox
        = (shownXAxisChart.layoutCyclePass baseEnv
            (shownXAxisChart.layoutCyclePass baseEnv
              (shownXAxisChart.initialLayoutState baseEnv))).canvasBox) :=
  ⟨by with_unfolding_all rfl, by with_unfolding_all rfl, by with_unfolding_all rfl,
   layoutTwoPassStable shownXAxisChart baseEnv (by decide) rfl (fun _ => rfl)
     (by with_unfolding_all rfl) (by with_unfolding_all rfl)
     (by with_unfolding_all rfl) (fun k r f d => rfl)⟩

end GoChart
